import Mathlib

/-!
Verification development for `sync_highlights.py` (Kindle → DEVONthink
highlight sync).  The Python source is shallowly embedded below: pure
functions become Lean functions over `List Char` / `String` / `Nat`,
the mutable sync state becomes explicit state passing, and the few
stdlib externals (`hashlib.md5`, `sorted`, `json`, file I/O,
`datetime.strptime`) are modelled as follows:

* `hashlib.md5` is implemented in full (RFC 1321) over byte lists,
  with 32-bit arithmetic done as `Nat` modulo `2^32`;
* `sorted(xs, key=...)` is modelled by a stable insertion sort — Python's
  `sorted` is a stable sort, and stable sorts with the same comparator
  agree extensionally;
* `datetime` values are modelled as `Nat`, ordered as datetimes are,
  with `datetime.min` the minimum value `0`; `datetime.strptime` is an
  external parameter `strptime : String → String → Option Nat`
  (`none` = `ValueError`), threaded through the parser;
* file reads/writes are modelled by their outcome (success / failure),
  matching the `try/except` structure of the source.

String scanning (`re.search` with the three concrete patterns of the
source, `str.split`, `str.strip`, `str.startswith`, substring tests)
is implemented directly on `List Char`, faithful to the regexes'
leftmost-match / greedy semantics on the pattern shapes that occur.
Python's `str.strip` and `\s` strip/match Unicode whitespace; the model
uses the ASCII whitespace set, which is what occurs in clippings files.
-/

/-! ## Python string primitives -/

/-- The ASCII whitespace characters stripped by Python's `str.strip()`
and matched by the regex class `\s`. -/
def isPySpace (c : Char) : Bool :=
  c = ' ' || c = '\t' || c = '\n' || c = '\r' || c = '\x0b' || c = '\x0c'

/-- Python `str.strip()` on a character list: drop leading and trailing whitespace. -/
def pyStripL (cs : List Char) : List Char :=
  ((cs.dropWhile isPySpace).reverse.dropWhile isPySpace).reverse

/-- Python `str.strip()` on a string. -/
def pyStrip (s : String) : String := ⟨pyStripL s.data⟩

/-- Python `str.split(sep)` with a non-empty separator `s0 :: srest`:
split on every non-overlapping occurrence, left to right.  Structural
recursion on a fuel bounded by the input length (each step consumes at
least one character, so the fuel never runs out when started at the
input length, as `pySplit` does). -/
def pySplitF (s0 : Char) (srest : List Char) : Nat → List Char → List (List Char)
  | _, [] => [[]]
  | 0, cs => [cs]
  | fuel + 1, c :: cs =>
    if (s0 :: srest).isPrefixOf (c :: cs) then
      [] :: pySplitF s0 srest fuel ((c :: cs).drop (s0 :: srest).length)
    else
      match pySplitF s0 srest fuel cs with
      | t :: ts => (c :: t) :: ts
      | [] => [[c]]

/-- Python `str.split(sep)` on a full character list. -/
def pySplit (s0 : Char) (srest : List Char) (cs : List Char) :
    List (List Char) :=
  pySplitF s0 srest cs.length cs

/-- Substring containment test `sub in s` (`str.__contains__`). -/
def subList (sub : List Char) : List Char → Bool
  | [] => sub.isEmpty
  | c :: cs => sub.isPrefixOf (c :: cs) || subList sub cs

/-- Lower-case a character list (ASCII case folding, as used by
`re.IGNORECASE` on the ASCII-only patterns of the source). -/
def lowerList (cs : List Char) : List Char := cs.map Char.toLower

/-! ## MD5 (RFC 1321), as called by `hashlib.md5(...).hexdigest()` -/

/-- UTF-8 encode one code point (`str.encode()`), as a list of byte values. -/
def utf8Bytes (c : Nat) : List Nat :=
  if c < 0x80 then [c]
  else if c < 0x800 then
    [0xC0 ||| (c >>> 6), 0x80 ||| (c &&& 0x3F)]
  else if c < 0x10000 then
    [0xE0 ||| (c >>> 12), 0x80 ||| ((c >>> 6) &&& 0x3F), 0x80 ||| (c &&& 0x3F)]
  else
    [0xF0 ||| (c >>> 18), 0x80 ||| ((c >>> 12) &&& 0x3F),
     0x80 ||| ((c >>> 6) &&& 0x3F), 0x80 ||| (c &&& 0x3F)]

/-- UTF-8 bytes of a string (`str.encode()`). -/
def utf8Encode (s : String) : List Nat := s.data.flatMap (fun c => utf8Bytes c.toNat)

/-- The 64 MD5 sine-table constants. -/
def md5K : List Nat :=
  [0xd76aa478, 0xe8c7b756, 0x242070db, 0xc1bdceee,
   0xf57c0faf, 0x4787c62a, 0xa8304613, 0xfd469501,
   0x698098d8, 0x8b44f7af, 0xffff5bb1, 0x895cd7be,
   0x6b901122, 0xfd987193, 0xa679438e, 0x49b40821,
   0xf61e2562, 0xc040b340, 0x265e5a51, 0xe9b6c7aa,
   0xd62f105d, 0x02441453, 0xd8a1e681, 0xe7d3fbc8,
   0x21e1cde6, 0xc33707d6, 0xf4d50d87, 0x455a14ed,
   0xa9e3e905, 0xfcefa3f8, 0x676f02d9, 0x8d2a4c8a,
   0xfffa3942, 0x8771f681, 0x6d9d6122, 0xfde5380c,
   0xa4beea44, 0x4bdecfa9, 0xf6bb4b60, 0xbebfbc70,
   0x289b7ec6, 0xeaa127fa, 0xd4ef3085, 0x04881d05,
   0xd9d4d039, 0xe6db99e5, 0x1fa27cf8, 0xc4ac5665,
   0xf4292244, 0x432aff97, 0xab9423a7, 0xfc93a039,
   0x655b59c3, 0x8f0ccc92, 0xffeff47d, 0x85845dd1,
   0x6fa87e4f, 0xfe2ce6e0, 0xa3014314, 0x4e0811a1,
   0xf7537e82, 0xbd3af235, 0x2ad7d2bb, 0xeb86d391]

/-- The 64 MD5 per-round left-rotation amounts. -/
def md5S : List Nat :=
  [7, 12, 17, 22, 7, 12, 17, 22, 7, 12, 17, 22, 7, 12, 17, 22,
   5,  9, 14, 20, 5,  9, 14, 20, 5,  9, 14, 20, 5,  9, 14, 20,
   4, 11, 16, 23, 4, 11, 16, 23, 4, 11, 16, 23, 4, 11, 16, 23,
   6, 10, 15, 21, 6, 10, 15, 21, 6, 10, 15, 21, 6, 10, 15, 21]

/-- Rotate a 32-bit value (a `Nat` below `2^32`) left by `n`. -/
def rotl32 (x n : Nat) : Nat :=
  ((x <<< n) % 4294967296) ||| (x >>> (32 - n))

/-- One of the 64 MD5 rounds. `M` is the 16-word message block,
the state is the `(A, B, C, D)` word tuple. -/
def md5Round (M : List Nat) (st : Nat × Nat × Nat × Nat) (i : Nat) :
    Nat × Nat × Nat × Nat :=
  let A := st.1; let B := st.2.1; let C := st.2.2.1; let D := st.2.2.2
  let fg : Nat × Nat :=
    if i < 16 then ((B &&& C) ||| ((B ^^^ 4294967295) &&& D), i)
    else if i < 32 then ((D &&& B) ||| ((D ^^^ 4294967295) &&& C), (5 * i + 1) % 16)
    else if i < 48 then (B ^^^ C ^^^ D, (3 * i + 5) % 16)
    else (C ^^^ (B ||| (D ^^^ 4294967295)), (7 * i) % 16)
  let f := (fg.1 + A + md5K.getD i 0 + M.getD fg.2 0) % 4294967296
  (D, (B + rotl32 f (md5S.getD i 0)) % 4294967296, B, C)

/-- Absorb one 64-byte chunk into the MD5 state. -/
def md5Chunk (st : Nat × Nat × Nat × Nat) (chunk : List Nat) :
    Nat × Nat × Nat × Nat :=
  let M := (List.range 16).map fun j =>
    chunk.getD (4 * j) 0 + 256 * chunk.getD (4 * j + 1) 0 +
    65536 * chunk.getD (4 * j + 2) 0 + 16777216 * chunk.getD (4 * j + 3) 0
  let r := (List.range 64).foldl (md5Round M) st
  ((st.1 + r.1) % 4294967296, (st.2.1 + r.2.1) % 4294967296,
   (st.2.2.1 + r.2.2.1) % 4294967296, (st.2.2.2 + r.2.2.2) % 4294967296)

/-- Split a byte list into 64-byte chunks. -/
def chunks64 : List Nat → List (List Nat)
  | [] => []
  | x :: xs => ((x :: xs).take 64) :: chunks64 ((x :: xs).drop 64)
  termination_by l => l.length
  decreasing_by simp [List.length_drop]; omega

/-- MD5 padding: append `0x80`, zero-pad to 56 mod 64 bytes, then the
original bit length as a 64-bit little-endian value. -/
def md5pad (msg : List Nat) : List Nat :=
  let L := msg.length
  let zeros := (119 - L % 64) % 64
  let bitLen := (8 * L) % 18446744073709551616
  msg ++ [0x80] ++ List.replicate zeros 0 ++
    ((List.range 8).map fun i => bitLen / 256 ^ i % 256)

/-- A 32-bit word as 4 little-endian bytes. -/
def wordLE (w : Nat) : List Nat :=
  [w % 256, w / 256 % 256, w / 65536 % 256, w / 16777216 % 256]

/-- The 16-byte MD5 digest of a byte list. -/
def md5digest (msg : List Nat) : List Nat :=
  let s := (chunks64 (md5pad msg)).foldl md5Chunk
    (0x67452301, 0xefcdab89, 0x98badcfe, 0x10325476)
  wordLE s.1 ++ wordLE s.2.1 ++ wordLE s.2.2.1 ++ wordLE s.2.2.2

/-- One lowercase hex digit (of `n % 16`), as produced by `hexdigest()`. -/
def hexDigitChar (n : Nat) : Char :=
  if n % 16 < 10 then Char.ofNat (48 + n % 16) else Char.ofNat (87 + n % 16)

/-- Bytes to lowercase hex characters, high nibble first. -/
def hexChars : List Nat → List Char
  | [] => []
  | b :: bs => hexDigitChar (b / 16) :: hexDigitChar b :: hexChars bs

/-- Hex digest `hashlib.md5(s.encode()).hexdigest()`. -/
def md5hexdigest (s : String) : String := ⟨hexChars (md5digest (utf8Encode s))⟩

/-! ## Data structures (`Highlight`, `Book`) -/

/-- A single highlight or note from a book (dataclass `Highlight`).
`page`, `location_start`, `location_end` are `Optional[int]`;
`date_added` is an `Optional[datetime]`, modelled as `Option Nat`
(ordered as datetimes, `0` = `datetime.min`). -/
structure Highlight where
  text : String
  page : Option Nat := none
  location_start : Option Nat := none
  location_end : Option Nat := none
  date_added : Option Nat := none
  is_note : Bool := false
deriving DecidableEq, Repr

/-- Formatting `f"{x}"` of an `Optional[int]`: `None` prints as `"None"`. -/
def pyOptStr : Option Nat → String
  | none => "None"
  | some n => toString n

/-- The serialization hashed in `Highlight.__post_init__`:
`f"{self.text}{self.page}{self.location_start}"`. -/
def serializeContent (text : String) (page location_start : Option Nat) : String :=
  text ++ pyOptStr page ++ pyOptStr location_start

/-- Identity assignment (`Highlight.__post_init__`):
`hashlib.md5(content.encode()).hexdigest()[:12]`. -/
def Highlight.highlight_id (h : Highlight) : String :=
  ⟨(md5hexdigest (serializeContent h.text h.page h.location_start)).data.take 12⟩

/-- Sort key (`Highlight.sort_key`): the tuple
`(page if page is not None else 999999, location_start if ... else 999999, date_added or datetime.min)`. -/
def Highlight.sort_key (h : Highlight) : Nat × Nat × Nat :=
  (h.page.getD 999999, h.location_start.getD 999999, h.date_added.getD 0)

/-- The characters removed by `re.sub(r'[<>:"/\\|?*]', '', ...)`. -/
def isUnsafeChar (c : Char) : Bool :=
  c = '<' || c = '>' || c = ':' || c = '"' || c = '/' || c = '\\' ||
  c = '|' || c = '?' || c = '*'

/-- Sanitization `re.sub(r'[<>:"/\\|?*]', '', s)`: drop the filesystem-unsafe characters. -/
def sanitizeName (s : String) : String := ⟨s.data.filter (fun c => !isUnsafeChar c)⟩

/-- A book with its highlights (dataclass `Book`). -/
structure Book where
  title : String
  author : String := "Unknown"
  highlights : List Highlight := []
deriving DecidableEq, Repr

/-- Derived filename `Book.safe_filename`. -/
def Book.safe_filename (b : Book) : String :=
  let title := sanitizeName b.title
  let author := sanitizeName b.author
  if author ≠ "" ∧ author ≠ "Unknown" then title ++ " — " ++ author else title

/-! ## Record parsing (`parse_title_author`, `parse_metadata`, `parse_date`) -/

/-- Match helper for `re.IGNORECASE` literal patterns: match the
lower-case pattern `p` against the input case-insensitively, returning
the remaining input on success. -/
def matchIWord : List Char → List Char → Option (List Char)
  | [], cs => some cs
  | _ :: _, [] => none
  | p :: ps, c :: cs => if c.toLower = p then matchIWord ps cs else none

/-- Maximal leading run of decimal digits (`(\d+)` greedy),
returning `(digits, rest)`. -/
def digitRun : List Char → List Char × List Char
  | [] => ([], [])
  | c :: cs =>
    if c.isDigit then
      let r := digitRun cs
      (c :: r.1, r.2)
    else ([], c :: cs)

/-- Value `int(...)` of a non-empty digit run. -/
def digitsToNat (ds : List Char) : Nat :=
  ds.foldl (fun acc c => 10 * acc + (c.toNat - 48)) 0

/-- Try `page\s+(\d+)` (with `re.IGNORECASE`) anchored at the head of
the input. -/
def tryPageAt (cs : List Char) : Option Nat :=
  match matchIWord "page".toList cs with
  | none => none
  | some rest =>
    let ws := rest.takeWhile isPySpace
    if ws.isEmpty then none
    else
      let ds := (digitRun (rest.drop ws.length)).1
      if ds.isEmpty then none else some (digitsToNat ds)

/-- Search `re.search(r'page\s+(\d+)', line, re.IGNORECASE)`:
leftmost match wins. -/
def searchPage : List Char → Option Nat
  | [] => none
  | c :: cs =>
    match tryPageAt (c :: cs) with
    | some n => some n
    | none => searchPage cs

/-- Try `location\s+(\d+)(?:-(\d+))?` (with `re.IGNORECASE`) anchored
at the head of the input. -/
def tryLocAt (cs : List Char) : Option (Nat × Option Nat) :=
  match matchIWord "location".toList cs with
  | none => none
  | some rest =>
    let ws := rest.takeWhile isPySpace
    if ws.isEmpty then none
    else
      let r := digitRun (rest.drop ws.length)
      if r.1.isEmpty then none
      else
        let d1 := digitsToNat r.1
        match r.2 with
        | '-' :: tail =>
          let r2 := (digitRun tail).1
          if r2.isEmpty then some (d1, none) else some (d1, some (digitsToNat r2))
        | _ => some (d1, none)

/-- Search `re.search(r'location\s+(\d+)(?:-(\d+))?', line, re.IGNORECASE)`. -/
def searchLoc : List Char → Option (Nat × Option Nat)
  | [] => none
  | c :: cs =>
    match tryLocAt (c :: cs) with
    | some r => some r
    | none => searchLoc cs

/-- Try `Added on\s+(.+)$` (with `re.IGNORECASE`) anchored at the head
of the input: after the literal, `\s+` greedily takes whitespace but
backtracks one character if `(.+)` (which needs at least one character,
and runs to the end of the line) would otherwise be empty. -/
def tryAddedAt (cs : List Char) : Option (List Char) :=
  match matchIWord "added on".toList cs with
  | none => none
  | some rest =>
    let ws := rest.takeWhile isPySpace
    if ws.isEmpty ∨ rest.length < 2 then none
    else some (rest.drop (min ws.length (rest.length - 1)))

/-- Search `re.search(r'Added on\s+(.+)$', line, re.IGNORECASE)`, returning
`group(1)`. -/
def searchAdded : List Char → Option (List Char)
  | [] => none
  | c :: cs =>
    match tryAddedAt (c :: cs) with
    | some g => some g
    | none => searchAdded cs

/-- The ordered `strptime` format list of `parse_date`. -/
def dateFormats : List String :=
  ["%A, %d %B %Y %H:%M:%S",
   "%A, %B %d, %Y %H:%M:%S",
   "%A, %B %d, %Y, %H:%M:%S",
   "%A %d %B %Y %H:%M:%S",
   "%d %B %Y %H:%M:%S"]

/-- Date parsing (`parse_date`): first format that `strptime` accepts wins; `None`
when all raise. `strptime date_str fmt` is the external
`datetime.strptime`, `none` meaning `ValueError`. -/
def parse_date (strptime : String → String → Option Nat) (date_str : String) :
    Option Nat :=
  (dateFormats.filterMap (fun fmt => strptime date_str fmt)).head?

/-- The dictionary built by `parse_metadata`. -/
structure Metadata where
  page : Option Nat := none
  location_start : Option Nat := none
  location_end : Option Nat := none
  date : Option Nat := none
  is_note : Bool := false
deriving DecidableEq, Repr

/-- Metadata parsing (`parse_metadata`): `None` unless the line starts with `'-'`;
otherwise extract the fields.  Note the `is_note` test is the
case-sensitive `'Your Note' in line or 'Your Bookmark' in line`,
while the page/location/date searches use `re.IGNORECASE`. -/
def parse_metadata (strptime : String → String → Option Nat) (line : String) :
    Option Metadata :=
  match line.data with
  | [] => none
  | c :: cs =>
    if c = '-' then
      some
        { is_note := subList "Your Note".toList (c :: cs) ||
            subList "Your Bookmark".toList (c :: cs)
          page := searchPage (c :: cs)
          location_start := (searchLoc (c :: cs)).map Prod.fst
          location_end := (searchLoc (c :: cs)).bind Prod.snd
          date :=
            match searchAdded (c :: cs) with
            | some g => parse_date strptime ⟨pyStripL g⟩
            | none => none }
    else none

/-- The trailing-parenthetical scan of
`re.match(r'^(.+?)\s*\(([^)]+)\)\s*$', line)`: find the earliest `'('`
preceded by at least one character whose following run of
non-`')'` characters is non-empty, is closed by `')'`, and is followed
only by whitespace; return `(prefix, contents)`. -/
def taMatch : List Char → List Char → Option (List Char × List Char)
  | _, [] => none
  | pre, c :: cs =>
    if c = '(' ∧ ¬ pre.isEmpty then
      let content := cs.takeWhile (fun x => x ≠ ')')
      let rest := cs.drop content.length
      if ¬ content.isEmpty ∧ rest.headD ' ' = ')' ∧
          (rest.drop 1).all isPySpace then
        some (pre, content)
      else taMatch (pre ++ [c]) cs
    else taMatch (pre ++ [c]) cs

/-- Header parsing (`parse_title_author`). -/
def parse_title_author (line : String) : String × String :=
  match taMatch [] line.data with
  | some (pre, content) => (⟨pyStripL pre⟩, ⟨pyStripL content⟩)
  | none => (pyStrip line, "Unknown")

/-! ## Book aggregation (`parse_clippings`) -/

/-- Aggregation step `books[book_key].highlights.append(highlight)`, creating
`Book(title=title, author=author)` on first sight of the key.  `books`
is the insertion-ordered dict, modelled as an association list. -/
def addToBook (books : List (String × Book)) (key title author : String)
    (h : Highlight) : List (String × Book) :=
  match books with
  | [] => [(key, { title := title, author := author, highlights := [h] })]
  | (k, b) :: rest =>
    if k = key then (k, { b with highlights := b.highlights ++ [h] }) :: rest
    else (k, b) :: addToBook rest key title author h

/-- The body of the `for entry in entries` loop of `parse_clippings`. -/
def parseEntry (strptime : String → String → Option Nat)
    (books : List (String × Book)) (entry : List Char) :
    List (String × Book) :=
  let e := pyStripL entry
  if e.isEmpty then books
  else
    let lines := pySplit '\n' [] e
    if lines.length < 3 then books
    else
      let title_line := pyStripL (lines.getD 0 [])
      let ta := parse_title_author ⟨title_line⟩
      let meta_line := pyStripL (lines.getD 1 [])
      match parse_metadata strptime ⟨meta_line⟩ with
      | none => books
      | some m =>
        let text := pyStripL (List.intercalate "\n".toList (lines.drop 3))
        if text.isEmpty then books
        else
          let book_key := ta.1 ++ "|" ++ ta.2
          addToBook books book_key ta.1 ta.2
            { text := ⟨text⟩, page := m.page,
              location_start := m.location_start,
              location_end := m.location_end,
              date_added := m.date, is_note := m.is_note }

/-- Full parse (`parse_clippings`), applied to the decoded file content (the
`utf-8-sig` decode itself is I/O): split on `'=========='`, parse each
entry, group into books keyed by `f"{title}|{author}"` in first-seen
order. -/
def parse_clippings (strptime : String → String → Option Nat)
    (content : String) : List (String × Book) :=
  (pySplit '=' "=========".toList content.data).foldl (parseEntry strptime) []

/-! ## Sorting (`sorted(book.highlights, key=lambda h: h.sort_key)`) -/

/-- Lexicographic `≤` on the `sort_key` tuples, as Python compares
`(int, int, datetime)` tuples. -/
def tupLE (a b : Nat × Nat × Nat) : Bool :=
  decide (a.1 < b.1 ∨ (a.1 = b.1 ∧
    (a.2.1 < b.2.1 ∨ (a.2.1 = b.2.1 ∧ a.2.2 ≤ b.2.2))))

/-- Comparator of `sorted` on highlights. -/
def hlLE (a b : Highlight) : Bool := tupLE a.sort_key b.sort_key

/-- Insert into an already-sorted list, before the first element not
`le`-below the new one — the stable position. -/
def insertSorted (le : Highlight → Highlight → Bool) (x : Highlight) :
    List Highlight → List Highlight
  | [] => [x]
  | y :: ys => if le x y then x :: y :: ys else y :: insertSorted le x ys

/-- Stable insertion sort; extensionally equal to Python's stable
`sorted` for a total preorder comparator. -/
def isortBy (le : Highlight → Highlight → Bool) :
    List Highlight → List Highlight
  | [] => []
  | x :: xs => insertSorted le x (isortBy le xs)

/-- Sorting `sorted(book.highlights, key=lambda h: h.sort_key)`. -/
def sortHighlights (hs : List Highlight) : List Highlight := isortBy hlLE hs

/-! ## Markdown generation (`generate_markdown`) -/

/-- Python truthiness of an `Optional[int]`: `None` and `0` are falsy. -/
def pyTruthy : Option Nat → Bool
  | none => false
  | some n => n != 0

/-- The reference label of one rendered entry: the
`if highlight.page: ... elif highlight.location_start: ...` chain. -/
def refLabel (h : Highlight) : String :=
  if pyTruthy h.page then "p. " ++ toString (h.page.getD 0)
  else if pyTruthy h.location_start then
    if pyTruthy h.location_end && decide (h.location_end ≠ h.location_start) then
      "loc. " ++ toString (h.location_start.getD 0) ++ "–" ++
        toString (h.location_end.getD 0)
    else "loc. " ++ toString (h.location_start.getD 0)
  else "no location"

/-- One `- **ref** — ...` line of the rendered document. -/
def entryLine (h : Highlight) : String :=
  if h.is_note then "- **" ++ refLabel h ++ "** — *[Note]* " ++ h.text
  else "- **" ++ refLabel h ++ "** — \"" ++ h.text ++ "\""

/-- The full rendered document: YAML header (with the run date
`today = datetime.now().strftime('%Y-%m-%d')`, passed explicitly) and
one entry plus a blank line per highlight, joined with `'\n'`. -/
def renderDoc (today : String) (book : Book) (sortedHs : List Highlight) :
    String :=
  String.intercalate "\n"
    (["---",
      "title: \"" ++ book.title ++ "\"",
      "author: \"" ++ book.author ++ "\"",
      "synced: " ++ today,
      "---",
      "",
      "## Highlights",
      ""] ++ sortedHs.flatMap (fun h => [entryLine h, ""]))

/-- Renderer (`generate_markdown book existing_ids`): returns
`(markdown-or-None, new_ids)`.  `existing_ids` is the `set(...)` of the
state's id list; set membership and set truthiness coincide with list
membership and non-emptiness. -/
def generate_markdown (today : String) (book : Book)
    (existing_ids : List String) : Option String × List String :=
  let sortedHs := sortHighlights book.highlights
  let newHs := sortedHs.filter (fun h => !(existing_ids.contains h.highlight_id))
  if newHs.isEmpty && !existing_ids.isEmpty then (none, [])
  else (some (renderDoc today book sortedHs), newHs.map Highlight.highlight_id)

/-! ## Sync state (`load_state`, `save_state`) and the per-book step -/

/-- The storage conditions `load_state` can meet, abstracting the
outcomes of the external `STATE_FILE.read_text()` / `json.loads`:
the file is missing; reading raises (`OSError`/`UnicodeDecodeError`);
reading succeeds but `json.loads` raises `JSONDecodeError`; or the
content parses as `{"imported_ids": ids}`. -/
inductive StorageCond
  | missing
  | unreadable
  | corrupt (content : String)
  | valid (ids : List String)
deriving DecidableEq, Repr

/-- State loading (`load_state`): only `json.JSONDecodeError` is caught (logging
"Corrupt state file, starting fresh"); an exception raised by
`read_text` itself propagates (`Except.error`).  On success the result
is the id list of the state dict together with the warnings logged. -/
def load_state : StorageCond → Except String (List String × List String)
  | .missing => .ok ([], [])
  | .unreadable => .error "read_text raised"
  | .corrupt _ => .ok ([], ["Corrupt state file, starting fresh"])
  | .valid ids => .ok (ids, [])

/-- Recording `state["imported_ids"].extend(new_ids)`. -/
def recordIds (imported_ids new_ids : List String) : List String :=
  imported_ids ++ new_ids

/-- Persisting (`save_state`): `json.dumps({"imported_ids": [...]}, indent=2)` —
a deterministic serialization of the id list. -/
def save_state (imported_ids : List String) : String :=
  match imported_ids with
  | [] => "\x7b\n  \"imported_ids\": []\n\x7d"
  | _ => "\x7b\n  \"imported_ids\": [\n" ++
      String.intercalate ",\n"
        (imported_ids.map (fun i => "    \"" ++ i ++ "\"")) ++
      "\n  ]\n\x7d"

/-- Outcome of one `process_book` call: the updated id list, the
returned count, the document written to the destination (if any), and
the log messages emitted. -/
structure StepResult where
  state : List String
  count : Nat
  written : Option String
  logs : List String
deriving DecidableEq, Repr

/-- Per-book step (`process_book`): generate markdown against a snapshot
of the state, write it out, and record the new ids only on success.
This version models the executions in which the `output_dir.mkdir`
call of `import_to_devonthink` succeeded, with `writeOk` the outcome
of the external `filepath.write_text`; `process_bookE` below is the
full model, in which a `mkdir` failure raises an uncaught exception
(the `mkdir` call sits outside the `try` of the source). -/
def process_book (today : String) (writeOk : Bool) (book : Book)
    (state : List String) : StepResult :=
  match generate_markdown today book state with
  | (none, _) => ⟨state, 0, none, ["No new highlights for: " ++ book.title]⟩
  | (some markdown, new_ids) =>
    if writeOk then
      ⟨recordIds state new_ids, new_ids.length, some markdown,
        ["Saved: " ++ book.safe_filename ++ " (+" ++
          toString new_ids.length ++ " highlights)"]⟩
    else
      ⟨state, 0, none, ["Failed to save: " ++ book.safe_filename]⟩

/-- The `for book in books.values(): total_new += process_book(...)`
loop of `main`, returning the final id list, the total count, and all
documents written, in order. -/
def runBooks (today : String) (writeOk : Book → Bool) (books : List Book)
    (state : List String) : List String × Nat × List String :=
  match books with
  | [] => (state, 0, [])
  | b :: rest =>
    let r := process_book today (writeOk b) b state
    let rec' := runBooks today writeOk rest r.state
    (rec'.1, r.count + rec'.2.1,
      (match r.written with | some d => [d] | none => []) ++ rec'.2.2)

/-- Outcome of the two external filesystem calls of
`import_to_devonthink`: both `output_dir.mkdir` and
`filepath.write_text` succeed; `mkdir` succeeds but `write_text`
raises (caught by the `try`, so the function returns `False`); or
`output_dir.mkdir` itself raises (permissions, disk full, the target
existing as a regular file) — that call is OUTSIDE the `try`, so the
exception propagates uncaught. -/
inductive WriteAttempt
  | success
  | writeRaises
  | mkdirRaises
deriving DecidableEq, Repr

/-- Destination write (`import_to_devonthink`): create the output
directory — uncaught `Except.error` on failure — then write the
document, returning `false` together with the error log when
`write_text` raises. -/
def import_to_devonthink (att : WriteAttempt) :
    Except String (Bool × List String) :=
  match att with
  | .mkdirRaises => .error "output_dir.mkdir raised"
  | .writeRaises => .ok (false, ["Error writing file"])
  | .success => .ok (true, [])

/-- Per-book step over the full destination model: `process_book`
calling `import_to_devonthink`, where an exception raised by the
directory creation propagates out of the step. -/
def process_bookE (today : String) (att : WriteAttempt) (book : Book)
    (state : List String) : Except String StepResult :=
  match generate_markdown today book state with
  | (none, _) => .ok ⟨state, 0, none, ["No new highlights for: " ++ book.title]⟩
  | (some markdown, new_ids) =>
    match import_to_devonthink att with
    | .error e => .error e
    | .ok (true, logs) =>
      .ok ⟨recordIds state new_ids, new_ids.length, some markdown,
        logs ++ ["Saved: " ++ book.safe_filename ++ " (+" ++
          toString new_ids.length ++ " highlights)"]⟩
    | .ok (false, logs) =>
      .ok ⟨state, 0, none, logs ++ ["Failed to save: " ++ book.safe_filename]⟩

/-- The main loop over the full destination model: an uncaught
exception aborts the remainder of the run — the following books are
never processed and `main`'s final `save_state` is never reached. -/
def runBooksE (today : String) (att : Book → WriteAttempt)
    (books : List Book) (state : List String) :
    Except String (List String × Nat × List String) :=
  match books with
  | [] => .ok (state, 0, [])
  | b :: rest =>
    match process_bookE today (att b) b state with
    | .error e => .error e
    | .ok r =>
      match runBooksE today att rest r.state with
      | .error e => .error e
      | .ok rec' =>
        .ok (rec'.1, r.count + rec'.2.1,
          (match r.written with | some d => [d] | none => []) ++ rec'.2.2)

/-! ## Spec-side definitions (for refinement claims) -/

/-- Spec-side: case-insensitive substring containment, the reading of
"extract, all case-insensitively" applied to the `is_note` markers. -/
def containsInsensitive (sub s : List Char) : Bool :=
  subList (lowerList sub) (lowerList s)

/-- Spec-side: the composite-key component for page and for location
described by the spec — present values ascend, an absent value sorts
after every present one.  Encoded into `Nat × Nat`, compared
lexicographically. -/
def specPageKey : Option Nat → Nat × Nat
  | some p => (0, p)
  | none => (1, 0)

/-- Spec-side: the composite-key component for the added date — present
values ascend, an absent date sorts before every present one. -/
def specDateKey : Option Nat → Nat × Nat
  | none => (0, 0)
  | some d => (1, d)

/-- Strict lexicographic order on encoded key components. -/
def pairLT (a b : Nat × Nat) : Bool :=
  decide (a.1 < b.1 ∨ (a.1 = b.1 ∧ a.2 < b.2))

/-- Non-strict lexicographic order on encoded key components. -/
def pairLE (a b : Nat × Nat) : Bool :=
  decide (a.1 < b.1 ∨ (a.1 = b.1 ∧ a.2 ≤ b.2))

/-- Spec-side composite order on highlights: page ascending (absent
last), then location start ascending (absent last), then added date
ascending (absent first). -/
def specSortLE (x y : Highlight) : Bool :=
  pairLT (specPageKey x.page) (specPageKey y.page) ||
  (decide (specPageKey x.page = specPageKey y.page) &&
    (pairLT (specPageKey x.location_start) (specPageKey y.location_start) ||
     (decide (specPageKey x.location_start = specPageKey y.location_start) &&
      pairLE (specDateKey x.date_added) (specDateKey y.date_added))))

/-- A `strptime` instance for concrete evaluations in which no date
text occurs (or none needs to parse): every format raises. -/
def strpNone : String → String → Option Nat := fun _ _ => none

/-- The lowercase hex alphabet of `hexdigest()`. -/
def hexAlphabet : List Char := "0123456789abcdef".data

/-! ## Helper lemmas -/

theorem hexDigitChar_mem (n : Nat) : hexDigitChar n ∈ hexAlphabet := by
  unfold hexDigitChar
  have h : n % 16 < 16 := Nat.mod_lt _ (by norm_num)
  set m := n % 16 with hm
  interval_cases m <;> decide

theorem hexChars_mem {bs : List Nat} {c : Char} (hc : c ∈ hexChars bs) :
    c ∈ hexAlphabet := by
  induction bs with
  | nil => simp [hexChars] at hc
  | cons b bs ih =>
    rcases hc with _ | ⟨_, hc⟩
    · exact hexDigitChar_mem _
    · rcases hc with _ | ⟨_, hc⟩
      · exact hexDigitChar_mem _
      · exact ih hc

theorem hexChars_length (bs : List Nat) : (hexChars bs).length = 2 * bs.length := by
  induction bs with
  | nil => simp [hexChars]
  | cons b bs ih => simp [hexChars, ih]; omega

theorem md5digest_length (msg : List Nat) : (md5digest msg).length = 16 := by
  simp [md5digest, wordLE]

theorem md5hexdigest_length (s : String) : (md5hexdigest s).data.length = 32 := by
  show (hexChars (md5digest (utf8Encode s))).length = 32
  rw [hexChars_length, md5digest_length]

/-- C1 (amended): the highlight id is a deterministic function of the
serialization `f"{text}{page}{location_start}"` — equal serializations
give equal ids — and every id is exactly 12 lowercase hex characters.
(The serialization itself is not injective on the triple; see the
counterexample.) -/
theorem highlight_id_deterministic_12hex (h₁ h₂ : Highlight)
    (hser : serializeContent h₁.text h₁.page h₁.location_start =
            serializeContent h₂.text h₂.page h₂.location_start) :
    h₁.highlight_id = h₂.highlight_id ∧
    h₁.highlight_id.length = 12 ∧
    ∀ c ∈ h₁.highlight_id.data, c ∈ hexAlphabet := by
  refine ⟨?_, ?_, ?_⟩
  · unfold Highlight.highlight_id
    rw [hser]
  · show ((md5hexdigest _).data.take 12).length = 12
    rw [List.length_take, md5hexdigest_length]
    omega
  · intro c hc
    have hc' : c ∈ (md5hexdigest (serializeContent h₁.text h₁.page h₁.location_start)).data :=
      List.mem_of_mem_take hc
    exact hexChars_mem hc'

/-- Witness for the C1 theorem at a concrete input. -/
theorem highlight_id_deterministic_12hex_witness :
    Highlight.highlight_id ⟨"q", some 7, some 8, none, none, false⟩ =
        Highlight.highlight_id ⟨"q", some 7, some 8, none, some 5, true⟩ ∧
    (Highlight.highlight_id ⟨"q", some 7, some 8, none, none, false⟩).length = 12 ∧
    ∀ c ∈ (Highlight.highlight_id ⟨"q", some 7, some 8, none, none, false⟩).data,
      c ∈ hexAlphabet :=
  highlight_id_deterministic_12hex _ _ (by decide)

/-- C1 counterexample: two highlights with distinct
`(text, page, location_start)` triples whose serializations — hence
ids — coincide: `"a" ++ "1" ++ "23" = "a" ++ "12" ++ "3"`. -/
theorem id_serialization_not_injective :
    Highlight.highlight_id ⟨"a", some 1, some 23, none, none, false⟩ =
      Highlight.highlight_id ⟨"a", some 12, some 3, none, none, false⟩ ∧
    (("a", (some 1 : Option Nat), (some 23 : Option Nat)) ≠
      ("a", (some 12 : Option Nat), (some 3 : Option Nat))) := by
  constructor
  · have h : serializeContent "a" (some 1) (some 23) =
        serializeContent "a" (some 12) (some 3) := by decide
    show (⟨(md5hexdigest (serializeContent "a" (some 1) (some 23))).data.take 12⟩ : String) =
        ⟨(md5hexdigest (serializeContent "a" (some 12) (some 3))).data.take 12⟩
    rw [h]
  · decide

/-- C6 (amended): a missing state file yields the empty state, content
that fails JSON decoding yields the empty state with a logged warning,
and well-formed content yields its id list — but an error raised while
reading the file itself (unreadable file, undecodable bytes) is not
caught and propagates. -/
theorem load_state_missing_or_corrupt_empty :
    load_state StorageCond.missing = .ok ([], []) ∧
    (∀ s, load_state (StorageCond.corrupt s) =
      .ok ([], ["Corrupt state file, starting fresh"])) ∧
    (∀ ids, load_state (StorageCond.valid ids) = .ok (ids, [])) :=
  ⟨rfl, fun _ => rfl, fun _ => rfl⟩

/-- C6 counterexample: an unreadable state file makes `load_state`
raise (only `json.JSONDecodeError` is caught, not the read error), so
"loading never raises" is false. -/
theorem load_state_raises_on_unreadable :
    load_state StorageCond.unreadable = .error "read_text raised" := rfl

/-- C8: the parser stores a literal page 0 / location 0 (distinct from
the absent state), but the renderer's `if highlight.page:` /
`elif highlight.location_start:` truthiness tests treat 0 like `None`,
so a page-0 highlight is labelled from its location (here `loc. 5`),
not `p. 0`, and a location-0 highlight falls through to
`no location`. -/
theorem page_zero_label_falls_through :
    parse_metadata strpNone "- Your Highlight on page 0 | location 5" =
      some { page := some 0, location_start := some 5, location_end := none,
             date := none, is_note := false } ∧
    refLabel { text := "t", page := some 0, location_start := some 5 } = "loc. 5" ∧
    refLabel { text := "t", page := some 0, location_start := some 5 } ≠ "p. 0" ∧
    refLabel { text := "t", location_start := some 0 } = "no location" ∧
    refLabel { text := "t", location_start := some 0 } ≠ "loc. 0" := by
  refine ⟨by decide, by decide, by decide, by decide, by decide⟩

/-- C9 (amended): for every line accepted by `parse_metadata`, the
`is_note` flag is set if and only if the line contains `'Your Note'`
or `'Your Bookmark'` as a case-sensitive substring (the page, location
and date searches are case-insensitive; this containment test is not). -/
theorem is_note_case_sensitive_iff (strptime : String → String → Option Nat)
    (line : String) (m : Metadata)
    (hp : parse_metadata strptime line = some m) :
    m.is_note = (subList "Your Note".toList line.data ||
      subList "Your Bookmark".toList line.data) := by
  unfold parse_metadata at hp
  split at hp
  next heq => exact absurd hp (by simp)
  next c cs heq =>
    rw [heq]
    split at hp
    next hc =>
      injection hp with h
      subst h
      rfl
    next hc => exact absurd hp (by simp)

/-- Witness for the C9 theorem at a concrete input. -/
theorem is_note_case_sensitive_iff_witness :
    (Metadata.is_note ⟨none, none, none, none, true⟩) =
      (subList "Your Note".toList "- Your Note x".data ||
       subList "Your Bookmark".toList "- Your Note x".data) :=
  is_note_case_sensitive_iff strpNone "- Your Note x"
    ⟨none, none, none, none, true⟩ (by decide)

/-- C9 counterexample: a line containing `'your note'` in lower case is
parsed with `is_note = false`, although it contains the note marker
under case-insensitive matching — the `in` test of the source is
case-sensitive. -/
theorem is_note_misses_lowercase_marker :
    parse_metadata strpNone "- your note on page 3" =
      some { page := some 3, location_start := none, location_end := none,
             date := none, is_note := false } ∧
    containsInsensitive "Your Note".toList "- your note on page 3".data = true := by
  refine ⟨by decide, by decide⟩

/-- Embedding of `line.startswith('-')` for a whole line. -/
def dashGate : List Char → Bool
  | [] => false
  | c :: _ => c = '-'

/-- C10: the leading `'-'` is the only condition on which
`parse_metadata` rejects; a dash line in which none of the page,
location, date or note/bookmark patterns occur parses to a record with
every optional field absent and `is_note = false`, and such a highlight
is labelled `no location` by the renderer. -/
theorem dash_only_gate (strptime : String → String → Option Nat)
    (line t : String)
    (hd : dashGate line.data = true)
    (hp : searchPage line.data = none)
    (hl : searchLoc line.data = none)
    (ha : searchAdded line.data = none)
    (hn : subList "Your Note".toList line.data = false)
    (hb : subList "Your Bookmark".toList line.data = false) :
    parse_metadata strptime line =
      some { page := none, location_start := none, location_end := none,
             date := none, is_note := false } ∧
    refLabel { text := t } = "no location" ∧
    (∀ l2 : String, (parse_metadata strptime l2).isSome = dashGate l2.data) := by
  refine ⟨?_, rfl, ?_⟩
  · unfold parse_metadata
    rcases hline : line.data with _ | ⟨c, cs⟩
    · rw [hline] at hd; exact absurd hd (by simp [dashGate])
    · rw [hline] at hd hp hl ha hn hb
      have hc : c = '-' := by simpa [dashGate] using hd
      subst hc
      simp [hp, hl, ha]
      exact ⟨by simpa using hn, by simpa using hb⟩
  · intro l2
    unfold parse_metadata
    rcases l2.data with _ | ⟨c, cs⟩
    · rfl
    · by_cases hc : c = '-' <;> simp [hc, dashGate]

/-- Witness for the C10 theorem at a concrete input. -/
theorem dash_only_gate_witness :
    parse_metadata strpNone "- hello" =
      some { page := none, location_start := none, location_end := none,
             date := none, is_note := false } ∧
    refLabel { text := "x" } = "no location" ∧
    (∀ l2 : String, (parse_metadata strpNone l2).isSome = dashGate l2.data) :=
  dash_only_gate strpNone "- hello" "x" (by decide) (by decide) (by decide)
    (by decide) (by decide) (by decide)

theorem mem_insertSorted (le : Highlight → Highlight → Bool) (x a : Highlight)
    (l : List Highlight) : a ∈ insertSorted le x l ↔ a = x ∨ a ∈ l := by
  induction l with
  | nil => simp [insertSorted]
  | cons y ys ih =>
    unfold insertSorted
    by_cases h : le x y = true
    · simp [h]
    · simp [h, ih]
      tauto

theorem mem_isortBy (le : Highlight → Highlight → Bool) (a : Highlight)
    (l : List Highlight) : a ∈ isortBy le l ↔ a ∈ l := by
  induction l with
  | nil => simp [isortBy]
  | cons x xs ih => simp [isortBy, mem_insertSorted, ih]

theorem mem_sortHighlights (a : Highlight) (hs : List Highlight) :
    a ∈ sortHighlights hs ↔ a ∈ hs := mem_isortBy hlLE a hs

theorem gm_none_iff (today : String) (b : Book) (s : List String) :
    (generate_markdown today b s).1 = none ↔
      ((∀ h ∈ b.highlights, h.highlight_id ∈ s) ∧ s ≠ []) := by
  unfold generate_markdown
  by_cases hc : ((sortHighlights b.highlights).filter
      (fun h => !(s.contains h.highlight_id))).isEmpty && !s.isEmpty
  · rw [if_pos hc]
    simp only [true_iff]
    simp only [Bool.and_eq_true, List.isEmpty_iff, Bool.not_eq_true',
      List.filter_eq_nil_iff] at hc
    obtain ⟨h1, h2⟩ := hc
    refine ⟨fun h hm => ?_, fun hs => by simp [hs] at h2⟩
    have := h1 h ((mem_sortHighlights h b.highlights).mpr hm)
    simpa [List.elem_iff] using this
  · rw [if_neg hc]
    simp only [Bool.and_eq_true, List.isEmpty_iff, Bool.not_eq_true',
      List.filter_eq_nil_iff, not_and_or] at hc
    constructor
    · intro h; exact absurd h (by simp)
    · rintro ⟨hall, hne⟩
      exfalso
      rcases hc with hc | hc
      · apply hc
        intro h hm
        have := hall h ((mem_sortHighlights h b.highlights).mp hm)
        simpa [List.elem_iff] using this
      · exact hne (by simpa [List.isEmpty_iff] using hc)

theorem gm_ids_cover (today : String) (b : Book) (s : List String)
    (md : String) (ids : List String)
    (hgm : generate_markdown today b s = (some md, ids)) :
    ∀ h ∈ b.highlights, h.highlight_id ∈ s ∨ h.highlight_id ∈ ids := by
  intro h hm
  simp only [generate_markdown] at hgm
  split at hgm
  · exact absurd hgm (by simp)
  · injection hgm with h1 h2
    by_cases hs : h.highlight_id ∈ s
    · exact Or.inl hs
    · right
      rw [← h2]
      refine List.mem_map.mpr ⟨h, ?_, rfl⟩
      refine List.mem_filter.mpr ⟨(mem_sortHighlights h b.highlights).mpr hm, ?_⟩
      simpa [List.elem_iff] using hs

theorem process_book_state_ext (today : String) (w : Bool) (b : Book)
    (s : List String) : ∃ ext, (process_book today w b s).state = s ++ ext := by
  unfold process_book
  rcases hgm : generate_markdown today b s with ⟨o, ids⟩
  cases o
  · exact ⟨[], by simp⟩
  · by_cases hw : w = true
    · exact ⟨ids, by simp [hw, recordIds]⟩
    · rw [Bool.not_eq_true] at hw
      exact ⟨[], by simp [hw]⟩

theorem process_book_covers (today : String) (b : Book) (s : List String) :
    ∀ h ∈ b.highlights, h.highlight_id ∈ (process_book today true b s).state := by
  intro h hm
  unfold process_book
  rcases hgm : generate_markdown today b s with ⟨o, ids⟩
  cases o with
  | none =>
    have := (gm_none_iff today b s).mp (by rw [hgm])
    simpa using this.1 h hm
  | some md =>
    rcases gm_ids_cover today b s md ids hgm h hm with hs | hi
    · simp [recordIds, List.mem_append, hs]
    · simp [recordIds, List.mem_append, hi]

theorem process_book_noop (today : String) (w : Bool) (b : Book)
    (s : List String) (hall : ∀ h ∈ b.highlights, h.highlight_id ∈ s)
    (hne : s ≠ []) :
    process_book today w b s =
      ⟨s, 0, none, ["No new highlights for: " ++ b.title]⟩ := by
  have h0 : (generate_markdown today b s).1 = none :=
    (gm_none_iff today b s).mpr ⟨hall, hne⟩
  unfold process_book
  rcases hgm : generate_markdown today b s with ⟨o, ids⟩
  rw [hgm] at h0
  cases o
  · rfl
  · exact absurd h0 (by simp)

theorem runBooks_state_ext (today : String) (w : Book → Bool)
    (books : List Book) (s : List String) :
    ∃ ext, (runBooks today w books s).1 = s ++ ext := by
  induction books generalizing s with
  | nil => exact ⟨[], by simp [runBooks]⟩
  | cons b rest ih =>
    obtain ⟨e1, he1⟩ := process_book_state_ext today (w b) b s
    obtain ⟨e2, he2⟩ := ih (process_book today (w b) b s).state
    refine ⟨e1 ++ e2, ?_⟩
    show (runBooks today w rest (process_book today (w b) b s).state).1 = _
    rw [he2, he1, List.append_assoc]

theorem runBooks_mem_mono (today : String) (w : Book → Bool)
    (books : List Book) (s : List String) (x : String) (hx : x ∈ s) :
    x ∈ (runBooks today w books s).1 := by
  obtain ⟨ext, he⟩ := runBooks_state_ext today w books s
  rw [he]; exact List.mem_append_left _ hx

theorem runBooks_covers (today : String) (books : List Book)
    (s : List String) (b : Book) (hb : b ∈ books) (h : Highlight)
    (hh : h ∈ b.highlights) :
    h.highlight_id ∈ (runBooks today (fun _ => true) books s).1 := by
  induction books generalizing s with
  | nil => cases hb
  | cons b0 rest ih =>
    rcases List.mem_cons.mp hb with rfl | hb
    · exact runBooks_mem_mono today _ rest _ _
        (process_book_covers today b s h hh)
    · exact ih _ hb

theorem runBooks_noop (today : String) (w : Book → Bool) (books : List Book)
    (s : List String)
    (hall : ∀ b ∈ books, ∀ h ∈ b.highlights, h.highlight_id ∈ s)
    (hne : s ≠ []) :
    runBooks today w books s = (s, 0, []) := by
  induction books with
  | nil => rfl
  | cons b rest ih =>
    have hpb := process_book_noop today (w b) b s
      (fun h hm => hall b (by simp) h hm) hne
    show (let r := process_book today (w b) b s
          let rec' := runBooks today w rest r.state
          (rec'.1, r.count + rec'.2.1,
            (match r.written with | some d => [d] | none => []) ++ rec'.2.2)) =
      (s, 0, [])
    rw [hpb]
    have := ih (fun bk hbk h hm => hall bk (by simp [hbk]) h hm)
    simp [this]

/-- C7 (amended): as a membership set the imported-id collection only
grows — recording adds exactly the given ids, recording only
already-present ids preserves the membership set, an id present before
any recording or any run is still present after — but the collection
is a plain list, so recording an already-present id appends a
duplicate rather than leaving the stored state literally unchanged. -/
theorem state_monotone_membership (s ids : List String) (x : String)
    (hx : x ∈ s) :
    (∀ y, y ∈ recordIds s ids ↔ (y ∈ s ∨ y ∈ ids)) ∧
    ((∀ i ∈ ids, i ∈ s) → ∀ y, (y ∈ recordIds s ids ↔ y ∈ s)) ∧
    x ∈ recordIds s ids ∧
    (∀ today writeOk books, x ∈ (runBooks today writeOk books s).1) := by
  refine ⟨fun y => by simp [recordIds], ?_, ?_, ?_⟩
  · intro hsub y
    simp only [recordIds, List.mem_append]
    exact ⟨fun h => h.elim id (fun hy => hsub y hy), Or.inl⟩
  · exact List.mem_append_left _ hx
  · intro today writeOk books
    exact runBooks_mem_mono today writeOk books s x hx

/-- Witness for the C7 theorem at a concrete input. -/
theorem state_monotone_membership_witness :
    (∀ y, y ∈ recordIds ["a"] ["a", "b"] ↔ (y ∈ ["a"] ∨ y ∈ ["a", "b"])) ∧
    ((∀ i ∈ ["a", "b"], i ∈ ["a"]) →
      ∀ y, (y ∈ recordIds ["a"] ["a", "b"] ↔ y ∈ ["a"])) ∧
    "a" ∈ recordIds ["a"] ["a", "b"] ∧
    (∀ today writeOk books, "a" ∈ (runBooks today writeOk books ["a"]).1) :=
  state_monotone_membership ["a"] ["a", "b"] "a" (by decide)

/-- C7 counterexample: recording an id that is already present does
not leave the stored state unchanged — the list (and hence the
persisted file) gains a duplicate entry. -/
theorem record_duplicate_changes_list :
    recordIds ["a"] ["a"] = ["a", "a"] ∧ recordIds ["a"] ["a"] ≠ ["a"] := by
  refine ⟨rfl, by decide⟩

/-- A concrete one-highlight book used by witnesses. -/
def bookW : Book := { title := "T", highlights := [{ text := "x", page := some 1 }] }

/-- A second concrete one-highlight book, used by the run-abort
counterexample. -/
def bookW2 : Book := { title := "U", highlights := [{ text := "y", page := some 2 }] }

theorem process_bookE_ok_parts (today : String) (att : WriteAttempt)
    (b : Book) (s : List String) (h : att ≠ WriteAttempt.mkdirRaises) :
    ∃ r, process_bookE today att b s = .ok r ∧
      r.state =
        (process_book today (decide (att = WriteAttempt.success)) b s).state ∧
      r.count =
        (process_book today (decide (att = WriteAttempt.success)) b s).count ∧
      r.written =
        (process_book today (decide (att = WriteAttempt.success)) b s).written := by
  unfold process_bookE process_book
  rcases hgm : generate_markdown today b s with ⟨o, ids⟩
  cases o with
  | none => exact ⟨_, rfl, rfl, rfl, rfl⟩
  | some md =>
    cases att with
    | success => exact ⟨_, rfl, rfl, rfl, rfl⟩
    | writeRaises => exact ⟨_, rfl, rfl, rfl, rfl⟩
    | mkdirRaises => exact absurd rfl h

theorem runBooksE_eq_runBooks (today : String) (att : Book → WriteAttempt)
    (books : List Book) (s : List String)
    (h : ∀ b ∈ books, att b ≠ WriteAttempt.mkdirRaises) :
    runBooksE today att books s =
      .ok (runBooks today (fun b => decide (att b = WriteAttempt.success))
        books s) := by
  induction books generalizing s with
  | nil => rfl
  | cons b rest ih =>
    obtain ⟨r, hr, hstate, hcount, hwritten⟩ :=
      process_bookE_ok_parts today (att b) b s (h b (by simp))
    have h' : ∀ bk ∈ rest, att bk ≠ WriteAttempt.mkdirRaises :=
      fun bk hbk => h bk (by simp [hbk])
    show (match process_bookE today (att b) b s with
          | Except.error e => Except.error e
          | Except.ok r =>
            match runBooksE today att rest r.state with
            | Except.error e => Except.error e
            | Except.ok rec' =>
              Except.ok (rec'.1, r.count + rec'.2.1,
                (match r.written with | some d => [d] | none => []) ++
                  rec'.2.2)) = _
    rw [hr]
    show (match runBooksE today att rest r.state with
          | Except.error e => Except.error e
          | Except.ok rec' =>
            Except.ok (rec'.1, r.count + rec'.2.1,
              (match r.written with | some d => [d] | none => []) ++
                rec'.2.2)) = _
    rw [ih _ h', hstate, hcount, hwritten]
    rfl

/-- C5 (amended): when the document write (`filepath.write_text`) for
a book fails, the exception is caught: none of that book's newly
classified ids are recorded (the id list is returned unchanged), the
count is 0, no document is produced, the failure is logged naming only
that book, and the run continues exactly as the run over the remaining
books from the unchanged state.  (A destination failure at directory
creation instead aborts the whole run — see the counterexample.) -/
theorem write_text_failure_isolated (today : String) (b : Book)
    (s : List String) (rest : List Book) (att : Book → WriteAttempt)
    (hfail : att b = WriteAttempt.writeRaises)
    (hdoc : (generate_markdown today b s).1.isSome) :
    process_bookE today (att b) b s =
      .ok ⟨s, 0, none,
        ["Error writing file", "Failed to save: " ++ b.safe_filename]⟩ ∧
    runBooksE today att (b :: rest) s = runBooksE today att rest s := by
  have h1 : process_bookE today (att b) b s =
      .ok ⟨s, 0, none,
        ["Error writing file", "Failed to save: " ++ b.safe_filename]⟩ := by
    unfold process_bookE
    rcases hgm : generate_markdown today b s with ⟨o, ids⟩
    cases o with
    | none => rw [hgm] at hdoc; exact absurd hdoc (by simp)
    | some md => simp [hfail, import_to_devonthink]
  refine ⟨h1, ?_⟩
  show (match process_bookE today (att b) b s with
        | Except.error e => Except.error e
        | Except.ok r =>
          match runBooksE today att rest r.state with
          | Except.error e => Except.error e
          | Except.ok rec' =>
            Except.ok (rec'.1, r.count + rec'.2.1,
              (match r.written with | some d => [d] | none => []) ++
                rec'.2.2)) =
    runBooksE today att rest s
  rw [h1]
  show (match runBooksE today att rest s with
        | Except.error e => Except.error e
        | Except.ok rec' =>
          Except.ok (rec'.1, 0 + rec'.2.1, ([] : List String) ++ rec'.2.2)) =
    runBooksE today att rest s
  rcases hrest : runBooksE today att rest s with e | rec' <;> simp

/-- Witness for the C5 theorem at a concrete input. -/
theorem write_text_failure_isolated_witness :
    process_bookE "2024-01-01" ((fun _ => WriteAttempt.writeRaises) bookW)
        bookW [] =
      .ok ⟨[], 0, none,
        ["Error writing file", "Failed to save: " ++ bookW.safe_filename]⟩ ∧
    runBooksE "2024-01-01" (fun _ => WriteAttempt.writeRaises) [bookW] [] =
      runBooksE "2024-01-01" (fun _ => WriteAttempt.writeRaises) [] [] :=
  write_text_failure_isolated "2024-01-01" bookW [] []
    (fun _ => WriteAttempt.writeRaises) rfl (by decide)

/-- C5 counterexample: a destination failure at directory creation —
`output_dir.mkdir` sits outside the `try` of `import_to_devonthink` —
raises an uncaught exception: the first book's write fails, the run
aborts with the exception instead of logging, continuing to the second
book and completing (and `main`'s final `save_state` is never
reached). -/
theorem mkdir_failure_aborts_run :
    (generate_markdown "2024-01-01" bookW []).1.isSome = true ∧
    runBooksE "2024-01-01" (fun _ => WriteAttempt.mkdirRaises)
        [bookW, bookW2] [] = .error "output_dir.mkdir raised" := by
  exact ⟨rfl, rfl⟩

theorem addToBook_highlights_ne_nil (books : List (String × Book))
    (k t a : String) (h : Highlight)
    (hinv : ∀ p ∈ books, p.2.highlights ≠ []) :
    ∀ p ∈ addToBook books k t a h, p.2.highlights ≠ [] := by
  induction books with
  | nil =>
    intro p hp
    simp only [addToBook, List.mem_singleton] at hp
    subst hp; simp
  | cons q rest ih =>
    intro p hp
    unfold addToBook at hp
    split at hp
    next hk =>
      rcases List.mem_cons.mp hp with hpe | hmem
      · subst hpe; simp
      · exact hinv p (List.mem_cons_of_mem _ hmem)
    next hk =>
      rcases List.mem_cons.mp hp with hpe | hmem
      · subst hpe
        exact hinv q (by simp)
      · exact ih (fun r hr => hinv r (List.mem_cons_of_mem _ hr)) p hmem

theorem parseEntry_highlights_ne_nil (strp : String → String → Option Nat)
    (books : List (String × Book)) (entry : List Char)
    (hinv : ∀ p ∈ books, p.2.highlights ≠ []) :
    ∀ p ∈ parseEntry strp books entry, p.2.highlights ≠ [] := by
  intro p hp
  simp only [parseEntry] at hp
  split at hp
  · exact hinv p hp
  · split at hp
    · exact hinv p hp
    · split at hp
      · exact hinv p hp
      · split at hp
        · exact hinv p hp
        · exact addToBook_highlights_ne_nil _ _ _ _ _ hinv p hp

theorem parse_clippings_highlights_ne_nil
    (strp : String → String → Option Nat) (content : String) :
    ∀ p ∈ parse_clippings strp content, p.2.highlights ≠ [] := by
  unfold parse_clippings
  generalize (pySplit '=' "=========".toList content.data) = entries
  have main : ∀ (es : List (List Char)) (books : List (String × Book)),
      (∀ p ∈ books, p.2.highlights ≠ []) →
      ∀ p ∈ es.foldl (parseEntry strp) books, p.2.highlights ≠ [] := by
    intro es
    induction es with
    | nil => intro books hinv; exact hinv
    | cons e es ih =>
      intro books hinv
      exact ih _ (parseEntry_highlights_ne_nil strp books e hinv)
  exact main entries [] (by simp)

theorem rerun_noop_aux (t₁ t₂ : String) (w₂ : Book → Bool)
    (books : List Book) (s₀ : List String)
    (hne : ∀ b ∈ books, b.highlights ≠ []) :
    runBooks t₂ w₂ books (runBooks t₁ (fun _ => true) books s₀).1 =
      ((runBooks t₁ (fun _ => true) books s₀).1, 0, []) := by
  have hall : ∀ b ∈ books, ∀ h ∈ b.highlights,
      h.highlight_id ∈ (runBooks t₁ (fun _ => true) books s₀).1 :=
    fun b hb h hh => runBooks_covers t₁ books s₀ b hb h hh
  rcases hB : books with _ | ⟨b0, rest⟩
  · rfl
  · rcases hh0 : b0.highlights with _ | ⟨h0, hs⟩
    · exact absurd hh0 (hne b0 (by rw [hB]; simp))
    · have hid : h0.highlight_id ∈ (runBooks t₁ (fun _ => true) books s₀).1 :=
        hall b0 (by rw [hB]; simp) h0 (by rw [hh0]; simp)
      rw [← hB]
      exact runBooks_noop t₂ w₂ books _ hall (List.ne_nil_of_mem hid)

/-- C2: running the per-book pipeline a second time over the books
parsed from the same unchanged content, starting from the id list left
by a fully successful first run, writes zero documents, counts zero new
highlights, leaves the id list unchanged, and serializes to the very
same persisted state. -/
theorem second_run_noop (strp : String → String → Option Nat)
    (content t₁ t₂ : String) (w₂ : Book → Bool) (s₀ : List String) :
    runBooks t₂ w₂ ((parse_clippings strp content).map Prod.snd)
        (runBooks t₁ (fun _ => true)
          ((parse_clippings strp content).map Prod.snd) s₀).1 =
      ((runBooks t₁ (fun _ => true)
          ((parse_clippings strp content).map Prod.snd) s₀).1, 0, []) ∧
    save_state (runBooks t₂ w₂ ((parse_clippings strp content).map Prod.snd)
        (runBooks t₁ (fun _ => true)
          ((parse_clippings strp content).map Prod.snd) s₀).1).1 =
      save_state (runBooks t₁ (fun _ => true)
          ((parse_clippings strp content).map Prod.snd) s₀).1 := by
  have hne : ∀ b ∈ (parse_clippings strp content).map Prod.snd,
      b.highlights ≠ [] := by
    intro b hb
    obtain ⟨p, hp, hpe⟩ := List.mem_map.mp hb
    exact hpe ▸ parse_clippings_highlights_ne_nil strp content p hp
  have h := rerun_noop_aux t₁ t₂ w₂
    ((parse_clippings strp content).map Prod.snd) s₀ hne
  exact ⟨h, by rw [h]⟩

theorem hlLE_total (a b : Highlight) : hlLE a b = true ∨ hlLE b a = true := by
  unfold hlLE tupLE
  simp only [decide_eq_true_eq]
  omega

theorem hlLE_trans (a b c : Highlight) (hab : hlLE a b = true)
    (hbc : hlLE b c = true) : hlLE a c = true := by
  unfold hlLE tupLE at *
  simp only [decide_eq_true_eq] at *
  omega

theorem insertSorted_pairwise (le : Highlight → Highlight → Bool)
    (htot : ∀ a b, le a b = true ∨ le b a = true)
    (htr : ∀ a b c, le a b = true → le b c = true → le a c = true)
    (x : Highlight) (l : List Highlight)
    (hl : l.Pairwise (fun a b => le a b = true)) :
    (insertSorted le x l).Pairwise (fun a b => le a b = true) := by
  induction l with
  | nil => simp [insertSorted]
  | cons y ys ih =>
    unfold insertSorted
    rcases List.pairwise_cons.mp hl with ⟨hy, hys⟩
    by_cases h : le x y = true
    · rw [if_pos h]
      refine List.pairwise_cons.mpr ⟨?_, hl⟩
      intro a ha
      rcases List.mem_cons.mp ha with rfl | ha
      · exact h
      · exact htr x y a h (hy a ha)
    · rw [if_neg h]
      refine List.pairwise_cons.mpr ⟨?_, ih hys⟩
      intro a ha
      rcases (mem_insertSorted le x a ys).mp ha with hax | ha
      · subst hax
        rcases htot a y with hxy | hyx
        · exact absurd hxy h
        · exact hyx
      · exact hy a ha

theorem isortBy_pairwise (le : Highlight → Highlight → Bool)
    (htot : ∀ a b, le a b = true ∨ le b a = true)
    (htr : ∀ a b c, le a b = true → le b c = true → le a c = true)
    (l : List Highlight) :
    (isortBy le l).Pairwise (fun a b => le a b = true) := by
  induction l with
  | nil => simp [isortBy]
  | cons x xs ih => exact insertSorted_pairwise le htot htr x _ ih

theorem sortHighlights_pairwise (hs : List Highlight) :
    (sortHighlights hs).Pairwise (fun a b => hlLE a b = true) :=
  isortBy_pairwise hlLE hlLE_total hlLE_trans hs

theorem key_le_spec (a b : Highlight)
    (hpa : ∀ p, a.page = some p → p < 999999)
    (hpb : ∀ p, b.page = some p → p < 999999)
    (hla : ∀ l, a.location_start = some l → l < 999999)
    (hlb : ∀ l, b.location_start = some l → l < 999999)
    (hda : ∀ d, a.date_added = some d → 0 < d)
    (hdb : ∀ d, b.date_added = some d → 0 < d)
    (hle : hlLE a b = true) : specSortLE a b = true := by
  rcases a with ⟨ta, pa, la, lea, da, na⟩
  rcases b with ⟨tb, pb, lb, leb, db, nb⟩
  simp only at hpa hpb hla hlb hda hdb
  unfold hlLE tupLE Highlight.sort_key at hle
  unfold specSortLE specPageKey specDateKey pairLT pairLE
  simp only [decide_eq_true_eq] at hle
  cases pa <;> cases pb <;> cases la <;> cases lb <;> cases da <;> cases db <;>
    simp_all <;> omega

/-- C4 (amended): for every book whose present page and location
values are below the absent-value sentinel `999999` and whose present
dates are later than `datetime.min`, the renderer's sorted order is
exactly the spec's composite order — page ascending with absent pages
last, then location start ascending with absent locations last, then
added date ascending with absent dates first.  (Beyond the sentinel
the order breaks; see the counterexample.) -/
theorem sort_order_spec_below_sentinels (book : Book)
    (hp : ∀ h ∈ book.highlights, ∀ p, h.page = some p → p < 999999)
    (hl : ∀ h ∈ book.highlights, ∀ l, h.location_start = some l → l < 999999)
    (hd : ∀ h ∈ book.highlights, ∀ d, h.date_added = some d → 0 < d) :
    (sortHighlights book.highlights).Pairwise
      (fun a b => specSortLE a b = true) := by
  refine (sortHighlights_pairwise book.highlights).imp_of_mem ?_
  intro a b ha hb hab
  have ha' := (mem_sortHighlights a book.highlights).mp ha
  have hb' := (mem_sortHighlights b book.highlights).mp hb
  exact key_le_spec a b (hp a ha') (hp b hb') (hl a ha') (hl b hb')
    (hd a ha') (hd b hb') hab

/-- A concrete book matching the spec's own sort example (§8). -/
def bookSortW : Book :=
  { title := "S",
    highlights :=
      [{ text := "a", page := some 5 },
       { text := "b", location_start := some 10 },
       { text := "c", page := some 2 }] }

/-- Witness for the C4 theorem at a concrete input. -/
theorem sort_order_spec_below_sentinels_witness :
    (sortHighlights bookSortW.highlights).Pairwise
      (fun a b => specSortLE a b = true) :=
  sort_order_spec_below_sentinels bookSortW (by decide) (by decide) (by decide)

/-- A concrete book breaking the claimed order: a present page of
`1000000` sorts after the absent-page sentinel `999999`, and a present
date equal to `datetime.min` ties with an absent date instead of
following it. -/
def bookSortC : Book :=
  { title := "S",
    highlights :=
      [{ text := "a", page := some 2, date_added := some 0 },
       { text := "b", page := some 2 },
       { text := "c", location_start := some 10 },
       { text := "d", page := some 1000000 }] }

/-- C4 counterexample: the renderer's order is not the spec's
composite order for arbitrarily large present values — with a present
page of `1000000` the absent-page highlight sorts first, violating
"absent page sorts after every present page". -/
theorem sort_order_violates_spec_key :
    ¬ (sortHighlights bookSortC.highlights).Pairwise
      (fun a b => specSortLE a b = true) := by decide

/-- One routed record: the `(title, author)` pair returned by
`parse_title_author` together with the record's `Highlight`. -/
def recKey (r : (String × String) × Highlight) : String :=
  r.1.1 ++ "|" ++ r.1.2

/-- The aggregation loop of `parse_clippings` over routed records:
fold `addToBook` with key `f"{title}|{author}"` over the records in
parse order, starting from the empty dict. -/
def aggregate (recs : List ((String × String) × Highlight)) :
    List (String × Book) :=
  recs.foldl (fun books r => addToBook books (recKey r) r.1.1 r.1.2 r.2) []

/-- Dictionary lookup in the insertion-ordered association list. -/
def lookupBook (books : List (String × Book)) (k : String) : Option Book :=
  (books.find? (fun p => decide (p.1 = k))).map Prod.snd

theorem lookupBook_addToBook_same (books : List (String × Book))
    (k t a : String) (h : Highlight) :
    lookupBook (addToBook books k t a h) k =
      some (match lookupBook books k with
        | none => { title := t, author := a, highlights := [h] }
        | some b => { b with highlights := b.highlights ++ [h] }) := by
  induction books with
  | nil => simp [addToBook, lookupBook]
  | cons q rest ih =>
    rcases q with ⟨k', b⟩
    unfold addToBook
    by_cases hq : k' = k
    · rw [if_pos hq]
      subst hq
      simp [lookupBook, List.find?_cons]
    · rw [if_neg hq]
      simp only [lookupBook, List.find?_cons, decide_eq_true_eq] at ih ⊢
      simp [hq, ih]

theorem lookupBook_addToBook_other (books : List (String × Book))
    (k t a : String) (h : Highlight) (k2 : String) (hne : k2 ≠ k) :
    lookupBook (addToBook books k t a h) k2 = lookupBook books k2 := by
  induction books with
  | nil => simp [addToBook, lookupBook, Ne.symm hne]
  | cons q rest ih =>
    rcases q with ⟨k', b⟩
    unfold addToBook
    by_cases hq : k' = k
    · rw [if_pos hq]
      subst hq
      simp [lookupBook, List.find?_cons, Ne.symm hne]
    · rw [if_neg hq]
      by_cases hq2 : k' = k2
      · subst hq2
        simp [lookupBook, List.find?_cons]
      · simp only [lookupBook, List.find?_cons, decide_eq_true_eq] at ih ⊢
        simp [hq2, ih]

/-- C3 (amended): during one parse pass, the book stored under a key
`k` holds exactly the highlights of the records whose key string
`f"{title}|{author}"` equals `k`, in order, with title and author
taken from the first such record.  Records are appended to the same
book if and only if their key strings are equal — equality of the
`(title, author)` pairs is sufficient but not necessary, since the
`'|'`-joined key is not injective on pairs (see the counterexample). -/
theorem aggregation_by_book_key
    (recs : List ((String × String) × Highlight)) (k : String) :
    lookupBook (aggregate recs) k =
      match recs.filter (fun r => decide (recKey r = k)) with
      | [] => none
      | r :: rs => some { title := r.1.1, author := r.1.2,
                          highlights := (r :: rs).map Prod.snd } := by
  induction recs using List.reverseRecOn with
  | nil => simp [aggregate, lookupBook]
  | append_singleton l r ih =>
    have hfold : aggregate (l ++ [r]) =
        addToBook (aggregate l) (recKey r) r.1.1 r.1.2 r.2 := by
      simp [aggregate, List.foldl_append]
    rw [hfold, List.filter_append]
    by_cases hk : recKey r = k
    · subst hk
      rw [lookupBook_addToBook_same, ih]
      rcases hfilter : l.filter (fun q => decide (recKey q = recKey r)) with _ | ⟨q, qs⟩ <;>
        simp
    · rw [lookupBook_addToBook_other _ _ _ _ _ _ (fun he => hk he.symm), ih]
      simp [hk]

/-- C3 counterexample: two records whose `(title, author)` pairs are
distinct — `("a|b", "c")` and `("a", "b|c")` — produce the same key
string `"a|b|c"`, and `parse_clippings` puts their highlights into one
and the same book. -/
theorem book_key_collision :
    (parse_clippings strpNone
        "a|b (c)\n- on page 1\n\nhello\n==========\na (b|c)\n- on page 2\n\nworld").map
      (fun p => (p.1, p.2.title, p.2.author, p.2.highlights.map Highlight.text)) =
      [("a|b|c", "a|b", "c", ["hello", "world"])] ∧
    (("a|b", "c") ≠ (("a" : String), ("b|c" : String))) ∧
    parse_title_author "a|b (c)" = ("a|b", "c") ∧
    parse_title_author "a (b|c)" = ("a", "b|c") := by
  refine ⟨by decide, by decide, by decide, by decide⟩
